import Mathlib

/-!
Shallow embedding of the recipe-app-api backend (Django/DRF application):
the data model from `app/core/models.py`, the user registration and token
flow from `app/user/serializers.py` and `app/user/views.py`, and the list
viewsets from `app/recipe/views.py`.  The relational store is modelled as
explicit lists of rows; the framework's request pipeline is modelled as
pure functions from a database state and a request to a response.
-/

namespace RecipeApp

/-- A user row: `core.models.User` (email unique, name, hashed password,
`is_active`/`is_staff`/`is_superuser` flags; identity key is the email). -/
structure User where
  id : Nat
  email : String
  name : String
  password : String
  is_active : Bool
  is_staff : Bool
  is_superuser : Bool
deriving DecidableEq

/-- A tag row: `core.models.Tag` (name, owning user foreign key with
`on_delete=CASCADE`). -/
structure Tag where
  id : Nat
  name : String
  user : Nat
deriving DecidableEq

/-- An ingredient row: `core.models.Ingredient` (name, owning user foreign
key with `on_delete=CASCADE`). -/
structure Ingredient where
  id : Nat
  name : String
  user : Nat
deriving DecidableEq

/-- A recipe row: `core.models.Recipe`.  `price` (a 2-digit decimal) is held
in cents; the many-to-many `tags`/`ingredients` relations are held as lists
of row ids; `image` is an optional stored file path. -/
structure Recipe where
  id : Nat
  user : Nat
  title : String
  time_minutes : Int
  price : Int
  link : String
  ingredients : List Nat
  tags : List Nat
  image : Option String
deriving DecidableEq

/-- The relational store: one table per model class. -/
structure Database where
  users : List User
  tags : List Tag
  ingredients : List Ingredient
  recipes : List Recipe
deriving DecidableEq

/-- Split a character list at the LAST occurrence of `c`, returning the
parts before and after it; `none` when `c` does not occur.  This is
Python's `str.rsplit(c, 1)` restricted to one separator character. -/
def rsplitLast (c : Char) : List Char → Option (List Char × List Char)
  | [] => none
  | x :: xs =>
    match rsplitLast c xs with
    | some (a, b) => some (x :: a, b)
    | none => if x = c then some ([], xs) else none

/-- ASCII whitespace, as stripped by Python `str.strip()`. -/
def isSpaceChar (c : Char) : Bool :=
  c.toNat = 32 ∨ (9 ≤ c.toNat ∧ c.toNat ≤ 13)

/-- Strip leading and trailing whitespace from a character list. -/
def trimChars (l : List Char) : List Char :=
  ((l.dropWhile isSpaceChar).reverse.dropWhile isSpaceChar).reverse

/-- Lowercase an ASCII letter, identity elsewhere. -/
def lowerChar (c : Char) : Char :=
  if 65 ≤ c.toNat ∧ c.toNat ≤ 90 then Char.ofNat (c.toNat + 32) else c

/-- Django `BaseUserManager.normalize_email`: strip surrounding whitespace,
split at the last `@`, and lowercase the domain part; an email without `@`
is returned unchanged (Python leaves the original, unstripped string when
the rsplit fails). -/
def normalize_email (email : String) : String :=
  match rsplitLast '@' (trimChars email.toList) with
  | none => email
  | some (name, domain) => (name ++ '@' :: domain.map lowerChar).asString

/-- Next autoincrement id for a list of rows with identifier `key`. -/
def nextId {α : Type} (key : α → Nat) (rows : List α) : Nat :=
  (rows.map key).foldr max 0 + 1

/-- `UserManager.create_user` from `core/models.py`: raise
`ValueError "User must have an email address"` on a falsy email, otherwise
persist a user with the normalized email and the hashed password.  The
framework password hasher is the external parameter `hash`; `extra_fields`
carries only `name` here.  An `Except.error` models the raised exception:
nothing is saved on that path. -/
def create_user (hash : String → String) (db : Database)
    (email : String) (password : String) (name : String) :
    Except String (Database × User) :=
  if email = "" then
    Except.error "User must have an email address"
  else
    let u : User :=
      { id := nextId User.id db.users
        email := normalize_email email
        name := name
        password := hash password
        is_active := true
        is_staff := false
        is_superuser := false }
    Except.ok ({ db with users := db.users ++ [u] }, u)

/-- Outcome of an HTTP write endpoint: the (possibly unchanged) store, the
status code, and the created row when one was created. -/
structure RegisterOutcome where
  db : Database
  status : Nat
  user : Option User
deriving DecidableEq

/-- `POST /user/create` (`CreateUserView` with `UserSerializer`): the
serializer declares `password` with `min_length: 5` and the `email` field
is required and unique (`unique=True` on the model, enforced by the
serializer's uniqueness validation before any write), so an empty email, a
password shorter than 5 characters, or a duplicate email is rejected with
status 400 and the store is unchanged; otherwise
`User.objects.create_user(**validated_data)` runs and status 201 is
returned. -/
def registerUser (hash : String → String) (db : Database)
    (email : String) (password : String) (name : String) : RegisterOutcome :=
  if email = "" ∨ password.length < 5 ∨ db.users.any (fun u => u.email == email) then
    { db := db, status := 400, user := none }
  else
    match create_user hash db email password name with
    | Except.error _ => { db := db, status := 400, user := none }
    | Except.ok (db', u) => { db := db', status := 201, user := some u }

/-- `check_password` on a stored user: the submitted raw password hashes to
the stored hash. -/
def check_password (hash : String → String) (raw : String) (u : User) : Bool :=
  hash raw == u.password

/-- Django `authenticate` with the model backend, as used by
`AuthTokenSerializer.validate`: fetch the user whose `USERNAME_FIELD`
(email) equals the submitted username, check the password, and require an
active user. -/
def authenticate (hash : String → String) (db : Database)
    (email : String) (password : String) : Option User :=
  match db.users.find? (fun u => u.email == email) with
  | none => none
  | some u => if check_password hash password u ∧ u.is_active then some u else none

/-- Python `str.split(sep)` over character lists: the (always nonempty)
list of separator-free groups between the separators. -/
def splitSep (sep : Char) : List Char → List (List Char)
  | [] => [[]]
  | c :: rest =>
    if c = sep then [] :: splitSep sep rest
    else
      match splitSep sep rest with
      | [] => [[c]]
      | g :: gs => (c :: g) :: gs

/-- `recipe_image_file_path` from `core/models.py`: take
`ext = filename.split(".")[-1]`, generate `f"{uuid.uuid4()}.{ext}"` and join
it under `uploads/recipe/`.  The freshly generated random UUID is the
external parameter `uuidStr`. -/
def recipe_image_file_path (uuidStr : String) (filename : String) : String :=
  let ext := ((splitSep '.' filename.toList).getLastD []).asString
  "uploads/recipe/" ++ (uuidStr ++ "." ++ ext)

/-- `b` starts with `a` (character-list comparison). -/
def leadsWith : List Char → List Char → Bool
  | [], _ => true
  | _ :: _, [] => false
  | a :: as, b :: bs => a = b && leadsWith as bs

/-- `n` occurs as a contiguous substring of `h` (character lists). -/
def occursIn (n : List Char) : List Char → Bool
  | [] => n.isEmpty
  | c :: rest => leadsWith n (c :: rest) || occursIn n rest

/-- Lexicographic comparison of character lists by code point, the order
underlying `order_by("name")` on the stored (case-sensitive) names. -/
def charListLe : List Char → List Char → Bool
  | [], _ => true
  | _ :: _, [] => false
  | a :: as, b :: bs => if a = b then charListLe as bs else decide (a.toNat < b.toNat)

/-- Lexicographic comparison of two names. -/
def nameLe (a b : String) : Bool := charListLe a.toList b.toList

/-- `TagViewSet.get_queryset` from `recipe/views.py`:
`self.queryset.filter(user=self.request.user).order_by("-name")` — the
authenticated caller's tags, descending by name.  Nothing else of the
request is consulted: in particular no query parameter reaches this
function. -/
def TagViewSet.get_queryset (db : Database) (caller : Nat) : List Tag :=
  List.insertionSort (fun a b : Tag => nameLe b.name a.name = true)
    (db.tags.filter (fun t => t.user == caller))

/-- `GET /recipe/tags` through `TagViewSet` (`TokenAuthentication`,
`IsAuthenticated`): an unauthenticated request is rejected with 401 before
`get_queryset` runs; an authenticated one receives the serialized queryset.
The `assigned_only` query parameter is carried by the request but, per the
source `get_queryset`, never read. -/
def tag_list_endpoint (db : Database) (auth : Option Nat)
    (assigned_only : Option String) : Except Nat (List Tag) :=
  match auth with
  | none => Except.error 401
  | some caller =>
    let _ := assigned_only
    Except.ok (TagViewSet.get_queryset db caller)

/-- Truthiness of an `assigned_only` query value per the spec's contract
(`bool(int(params.get("assigned_only", 0)))`): present and equal to a
nonzero integer literal. -/
def truthyParam (v : Option String) : Bool :=
  match v with
  | none => false
  | some s => match s.toNat? with
    | none => false
    | some n => n ≠ 0

/-- Modelled from the spec: the ingredient list queryset.  The
`IngredientViewSet` is not under `src/` (only its tests are); per §4.1 it
returns the caller's ingredients, narrowed when `assigned_only` is truthy
to those appearing in the ingredient set of at least one recipe (any
recipe), deduplicated, descending by name. -/
def IngredientViewSet.narrowed (db : Database) (caller : Nat)
    (assigned_only : Option String) : List Ingredient :=
  let owned := db.ingredients.filter (fun i => i.user == caller)
  if truthyParam assigned_only then
    owned.filter (fun i => db.recipes.any (fun r => r.ingredients.contains i.id))
  else owned

/-- The ingredient list response body: the narrowed set ordered descending
by name. -/
def IngredientViewSet.get_queryset (db : Database) (caller : Nat)
    (assigned_only : Option String) : List Ingredient :=
  List.insertionSort (fun a b : Ingredient => nameLe b.name a.name = true)
    (IngredientViewSet.narrowed db caller assigned_only)

/-- Modelled from the spec: `GET /recipe/ingredients` with the same
authentication contract as the tag endpoint (401 before any filtering). -/
def ingredient_list_endpoint (db : Database) (auth : Option Nat)
    (assigned_only : Option String) : Except Nat (List Ingredient) :=
  match auth with
  | none => Except.error 401
  | some caller => Except.ok (IngredientViewSet.get_queryset db caller assigned_only)

/-- Parse a token of decimal digits; `none` on an empty or non-numeric
token. -/
def tokenToNat? (l : List Char) : Option Nat :=
  if l.isEmpty then none
  else if l.all (fun c => decide (48 ≤ c.toNat) && decide (c.toNat ≤ 57)) then
    some (l.foldl (fun n c => n * 10 + (c.toNat - 48)) 0)
  else none

/-- Comma-separated identifier list of the `tags`/`ingredients` query
parameters, each token parsed as a decimal integer (malformed tokens are
outside the claims considered here and are dropped). -/
def params_to_ids (qs : String) : List Nat :=
  (splitSep ',' qs.toList).filterMap tokenToNat?

/-- Modelled from the spec: the recipe list queryset.  The `RecipeViewSet`
is not under `src/` (only its tests are); per §4.1 it returns the caller's
recipes, restricted — when the `tags` (resp. `ingredients`) parameter is
present — to recipes having at least one tag (resp. ingredient) whose id is
in the given comma-separated set, each matching recipe exactly once,
descending by id. -/
def RecipeViewSet.narrowed (db : Database) (caller : Nat)
    (tagsParam : Option String) (ingredientsParam : Option String) : List Recipe :=
  let owned := db.recipes.filter (fun r => r.user == caller)
  let byTags :=
    match tagsParam with
    | none => owned
    | some qs => owned.filter (fun r => r.tags.any (fun t => (params_to_ids qs).contains t))
  match ingredientsParam with
  | none => byTags
  | some qs =>
    byTags.filter (fun r => r.ingredients.any (fun i => (params_to_ids qs).contains i))

/-- The recipe list response body: the narrowed set ordered descending by
id. -/
def RecipeViewSet.get_queryset (db : Database) (caller : Nat)
    (tagsParam : Option String) (ingredientsParam : Option String) : List Recipe :=
  List.insertionSort (fun a b : Recipe => b.id ≤ a.id)
    (RecipeViewSet.narrowed db caller tagsParam ingredientsParam)

/-- Modelled from the spec: `GET /recipe/recipes` with the same
authentication contract as the tag endpoint (401 before any filtering). -/
def recipe_list_endpoint (db : Database) (auth : Option Nat)
    (tagsParam : Option String) (ingredientsParam : Option String) :
    Except Nat (List Recipe) :=
  match auth with
  | none => Except.error 401
  | some caller => Except.ok (RecipeViewSet.get_queryset db caller tagsParam ingredientsParam)

/-- A client payload for a recipe write: the serializer's writable fields
(`title`, `time_minutes`, `price`, `link`, `tags`, `ingredients`) — the
owning user is NOT among them.  `none` models a field absent from the
request body. -/
structure RecipePayload where
  title : Option String
  time_minutes : Option Int
  price : Option Int
  link : Option String
  tags : Option (List Nat)
  ingredients : Option (List Nat)
deriving DecidableEq

/-- Modelled from the spec: PATCH on a recipe (merge semantics of
`ModelSerializer.update` with `partial=True`): only fields present in the
payload are changed; omitted fields — the many-to-many `tags` and
`ingredients` included — keep their stored value.  The owner and id are
untouched. -/
def partial_update (r : Recipe) (p : RecipePayload) : Recipe :=
  { r with
    title := p.title.getD r.title
    time_minutes := p.time_minutes.getD r.time_minutes
    price := p.price.getD r.price
    link := p.link.getD r.link
    tags := p.tags.getD r.tags
    ingredients := p.ingredients.getD r.ingredients }

/-- Modelled from the spec: PUT on a recipe (replace semantics of
`ModelSerializer.update`): the required fields `title`, `time_minutes`,
`price` must be present (otherwise the request fails validation, `none`
here); omitted optional fields are reset to their declared defaults — the
blank `link` to `""` and the many-to-many `tags`/`ingredients` to the empty
set.  The owner and id are untouched. -/
def full_update (r : Recipe) (p : RecipePayload) : Option Recipe :=
  match p.title, p.time_minutes, p.price with
  | some t, some m, some pr =>
    some { r with
      title := t
      time_minutes := m
      price := pr
      link := p.link.getD ""
      tags := p.tags.getD []
      ingredients := p.ingredients.getD [] }
  | _, _, _ => none

/-- Modelled from the spec: authenticated tag creation
(`serializer.save(user=self.request.user)`): the owner is stamped from the
authenticated caller, never from the payload (the serializer exposes only
`name`). -/
def createTag (db : Database) (caller : Nat) (name : String) : Database × Tag :=
  let t : Tag := { id := nextId Tag.id db.tags, name := name, user := caller }
  ({ db with tags := db.tags ++ [t] }, t)

/-- Modelled from the spec: authenticated ingredient creation, owner
stamped from the caller. -/
def createIngredient (db : Database) (caller : Nat) (name : String) :
    Database × Ingredient :=
  let i : Ingredient := { id := nextId Ingredient.id db.ingredients, name := name, user := caller }
  ({ db with ingredients := db.ingredients ++ [i] }, i)

/-- Modelled from the spec: authenticated recipe creation, owner stamped
from the caller; payload relations and fields taken from the client
payload with their defaults. -/
def createRecipe (db : Database) (caller : Nat) (p : RecipePayload) :
    Database × Recipe :=
  let r : Recipe :=
    { id := nextId Recipe.id db.recipes
      user := caller
      title := p.title.getD ""
      time_minutes := p.time_minutes.getD 0
      price := p.price.getD 0
      link := p.link.getD ""
      ingredients := p.ingredients.getD []
      tags := p.tags.getD []
      image := none }
  ({ db with recipes := db.recipes ++ [r] }, r)

/-- Deleting a user row: the `on_delete=CASCADE` declarations on the
`user` foreign keys of `Tag`, `Ingredient` and `Recipe` in
`core/models.py` delete every row owned by the deleted user. -/
def deleteUser (db : Database) (uid : Nat) : Database :=
  { users := db.users.filter (fun u => u.id ≠ uid)
    tags := db.tags.filter (fun t => t.user ≠ uid)
    ingredients := db.ingredients.filter (fun i => i.user ≠ uid)
    recipes := db.recipes.filter (fun r => r.user ≠ uid) }

/-- The ownership invariant of §3: every tag, ingredient and recipe row
references an existing user row as its owner. -/
def Database.ownersExist (db : Database) : Prop :=
  (∀ t ∈ db.tags, ∃ u ∈ db.users, u.id = t.user) ∧
  (∀ i ∈ db.ingredients, ∃ u ∈ db.users, u.id = i.user) ∧
  (∀ r ∈ db.recipes, ∃ u ∈ db.users, u.id = r.user)

instance (db : Database) : Decidable db.ownersExist := by
  unfold Database.ownersExist
  infer_instance

/-! ### Helper lemmas -/

theorem splitSep_ne_nil (sep : Char) (l : List Char) : splitSep sep l ≠ [] := by
  cases l with
  | nil => simp [splitSep]
  | cons c rest =>
    by_cases h : c = sep
    · simp [splitSep, h]
    · simp only [splitSep, if_neg h]
      cases hrec : splitSep sep rest with
      | nil => simp
      | cons g gs => simp

theorem splitSep_append (sep : Char) (l₁ l₂ : List Char) :
    splitSep sep (l₁ ++ sep :: l₂) = splitSep sep l₁ ++ splitSep sep l₂ := by
  induction l₁ with
  | nil => simp [splitSep]
  | cons c rest ih =>
    by_cases h : c = sep
    · simp [splitSep, h, ih]
    · cases hrec : splitSep sep rest with
      | nil => exact absurd hrec (splitSep_ne_nil sep rest)
      | cons g gs => simp [splitSep, if_neg h, ih, hrec]

theorem splitSep_no_sep (sep : Char) (l : List Char) (h : sep ∉ l) :
    splitSep sep l = [l] := by
  induction l with
  | nil => simp [splitSep]
  | cons c rest ih =>
    simp only [List.mem_cons, not_or] at h
    simp [splitSep, Ne.symm h.1, ih h.2]

theorem find?_append_right {α : Type} (p : α → Bool) (l₁ l₂ : List α)
    (h : ∀ x ∈ l₁, p x = false) : (l₁ ++ l₂).find? p = l₂.find? p := by
  induction l₁ with
  | nil => simp
  | cons a as ih =>
    simp only [List.cons_append, List.find?_cons, h a (by simp)]
    exact ih (fun x hx => h x (by simp [hx]))

theorem mem_tag_queryset (db : Database) (caller : Nat) (t : Tag) :
    t ∈ TagViewSet.get_queryset db caller ↔ t ∈ db.tags ∧ t.user = caller := by
  unfold TagViewSet.get_queryset
  rw [List.mem_insertionSort, List.mem_filter]
  simp

theorem mem_ingredient_narrowed (db : Database) (caller : Nat)
    (p : Option String) (i : Ingredient) (h : i ∈ IngredientViewSet.narrowed db caller p) :
    i ∈ db.ingredients ∧ i.user = caller := by
  unfold IngredientViewSet.narrowed at h
  split at h
  · have := (List.mem_filter.1 h).1
    simpa using List.mem_filter.1 this
  · simpa using List.mem_filter.1 h

theorem mem_recipe_narrowed (db : Database) (caller : Nat)
    (pt pi : Option String) (r : Recipe)
    (h : r ∈ RecipeViewSet.narrowed db caller pt pi) :
    r ∈ db.recipes ∧ r.user = caller := by
  unfold RecipeViewSet.narrowed at h
  have hbt : r ∈
      match pt with
      | none => db.recipes.filter (fun (x : Recipe) => x.user == caller)
      | some qs => (db.recipes.filter (fun (x : Recipe) => x.user == caller)).filter
          (fun (x : Recipe) => x.tags.any (fun t => (params_to_ids qs).contains t)) := by
    cases pi with
    | none => exact h
    | some qs => exact (List.mem_filter.1 h).1
  have hown : r ∈ db.recipes.filter (fun (x : Recipe) => x.user == caller) := by
    cases pt with
    | none => exact hbt
    | some qs => exact (List.mem_filter.1 hbt).1
  simpa using List.mem_filter.1 hown

/-! ### Claim theorems -/

/-- C6: a request to any of the three list endpoints without an
authenticated caller fails with 401 and returns no entity data, regardless
of the database state and the query parameters. -/
theorem C6_unauthenticated_401 (db : Database) (p q r : Option String) :
    tag_list_endpoint db none p = Except.error 401 ∧
    ingredient_list_endpoint db none p = Except.error 401 ∧
    recipe_list_endpoint db none q r = Except.error 401 :=
  ⟨rfl, rfl, rfl⟩

/-- C10: `create_user` with an empty email raises the documented error and
persists nothing; with a non-empty email it persists exactly one new user
whose stored email is the normalized input and whose stored password is
the hash of the supplied password — never the plaintext, as long as the
hasher moves the plaintext. -/
theorem C10_create_user (hash : String → String) (db : Database)
    (email password name : String) :
    create_user hash db "" password name =
      Except.error "User must have an email address" ∧
    (email ≠ "" → ∃ u : User,
      create_user hash db email password name =
        Except.ok ({ db with users := db.users ++ [u] }, u) ∧
      u.email = normalize_email email ∧
      u.password = hash password ∧
      (hash password ≠ password → u.password ≠ password)) := by
  constructor
  · simp [create_user]
  · intro h
    refine ⟨{ id := nextId User.id db.users, email := normalize_email email,
              name := name, password := hash password, is_active := true,
              is_staff := false, is_superuser := false },
      ?_, rfl, rfl, fun hne => hne⟩
    simp [create_user, h]

/-- Witness for C10 at concrete inputs: hasher `fun s => "h" ++ s`, empty
store, email `a@B.com`, password `secret7`. -/
theorem C10_witness :
    ∃ u : User,
      create_user (fun s => "h" ++ s) (Database.mk [] [] [] [])
          "a@B.com" "secret7" "Nina" =
        Except.ok ({ Database.mk [] [] [] [] with users := [] ++ [u] }, u) ∧
      u.email = normalize_email "a@B.com" ∧
      u.password = (fun s => "h" ++ s) "secret7" ∧
      ((fun s => "h" ++ s) "secret7" ≠ "secret7" → u.password ≠ "secret7") :=
  (C10_create_user (fun s => "h" ++ s) (Database.mk [] [] [] [])
    "a@B.com" "secret7" "Nina").2 (by decide)

/-- C5 counterexample: for the dotless upload filename `secret` the code
takes `split(".")[-1]` of the whole name, so the stored path is
`uploads/recipe/<uuid>.secret` — the client-supplied base name (here the
entire name `secret`, which has no extension) does appear in the stored
path, contradicting the claim that it never does. -/
theorem C5_base_name_leaks :
    recipe_image_file_path "3e2ac6f0" "secret" = "uploads/recipe/3e2ac6f0.secret" ∧
    occursIn "secret".toList (recipe_image_file_path "3e2ac6f0" "secret").toList = true := by
  constructor
  · rfl
  · decide

/-- C5 amended: for every upload filename that HAS an extension (a final
dot-free component preceded by a dot), the stored path is the fixed
directory `uploads/recipe/` joined with the fresh UUID and only that
extension; the part of the filename before the last dot contributes
nothing to the path.  (For a dotless filename the code instead keeps the
whole client name as the `ext` part.) -/
theorem C5_extension_only (uuidStr base ext : String) (h : '.' ∉ ext.toList) :
    recipe_image_file_path uuidStr (base ++ "." ++ ext) =
      "uploads/recipe/" ++ (uuidStr ++ "." ++ ext) := by
  have h1 : (base ++ "." ++ ext).toList = base.toList ++ '.' :: ext.toList := by
    simp [String.toList]
  simp only [recipe_image_file_path]
  rw [h1, splitSep_append, splitSep_no_sep '.' ext.toList h]
  have h2 : ext.data.asString = ext := String.asString_toList ext
  simp [h2]

/-- Witness for C5 amended at `evil.jpg`: only `jpg` survives. -/
theorem C5_extension_only_witness :
    recipe_image_file_path "u1" ("evil" ++ "." ++ "jpg") =
      "uploads/recipe/" ++ ("u1" ++ "." ++ "jpg") :=
  C5_extension_only "u1" "evil" "jpg" (by decide)

/-- The store of `test_retrieve_tags_assigned_to_recipes`: one user, tags
`Breakfast` (assigned to the only recipe) and `Lunch` (assigned to no
recipe). -/
def dbAssigned : Database :=
  { users := [{ id := 1, email := "test@gmail.com", name := "",
                password := "x", is_active := true, is_staff := false,
                is_superuser := false }]
    tags := [{ id := 1, name := "Breakfast", user := 1 },
             { id := 2, name := "Lunch", user := 1 }]
    ingredients := []
    recipes := [{ id := 1, user := 1, title := "Coriander eggs on toast",
                  time_minutes := 10, price := 500, link := "",
                  ingredients := [], tags := [1], image := none }] }

/-- C2 (code bug): at the store of the repository's own test
`test_retrieve_tags_assigned_to_recipes`, a request with `assigned_only=1`
still returns the tag `Lunch`, which is attached to no recipe — the source
`TagViewSet.get_queryset` never reads the `assigned_only` parameter, while
the repository's tests (and the spec) require `Lunch` to be excluded. -/
theorem C2_assigned_only_ignored :
    tag_list_endpoint dbAssigned (some 1) (some "1") =
      Except.ok [{ id := 2, name := "Lunch", user := 1 },
                 { id := 1, name := "Breakfast", user := 1 }] ∧
    dbAssigned.recipes.any (fun r => r.tags.contains 2) = false := by
  constructor
  · exact congrArg Except.ok (by decide)
  · rfl

/-- C1: list results are owner-scoped: for any two distinct callers A and
B, an entity owned by A never appears in B's list result, whatever the
query parameters (any `assigned_only` value for ingredients, any
`tags`/`ingredients` values for recipes; the tag endpoint reads no
parameter at all). -/
theorem C1_owner_scoping (db : Database) (A B : Nat) (hAB : A ≠ B) :
    (∀ t : Tag, t.user = A → t ∉ TagViewSet.get_queryset db B) ∧
    (∀ (p : Option String) (i : Ingredient), i.user = A →
      i ∉ IngredientViewSet.get_queryset db B p) ∧
    (∀ (pt pi : Option String) (r : Recipe), r.user = A →
      r ∉ RecipeViewSet.get_queryset db B pt pi) := by
  refine ⟨?_, ?_, ?_⟩
  · intro t ht hmem
    exact hAB (ht ▸ ((mem_tag_queryset db B t).1 hmem).2.symm ▸ rfl)
  · intro p i hi hmem
    unfold IngredientViewSet.get_queryset at hmem
    rw [List.mem_insertionSort] at hmem
    have := (mem_ingredient_narrowed db B p i hmem).2
    exact hAB (hi ▸ this ▸ rfl)
  · intro pt pi r hr hmem
    unfold RecipeViewSet.get_queryset at hmem
    rw [List.mem_insertionSort] at hmem
    have := (mem_recipe_narrowed db B pt pi r hmem).2
    exact hAB (hr ▸ this ▸ rfl)

/-- Witness for C1: in the two-user store of
`test_tags_limited_to_user`, user 2's tag `Fruitly` is absent from user
1's tag list, and an analogous exclusion holds on the other endpoints. -/
theorem C1_witness :
    (Tag.mk 3 "Fruitly" 2 ∉ TagViewSet.get_queryset dbAssigned 1) ∧
    (Ingredient.mk 4 "Vinegar" 2 ∉ IngredientViewSet.get_queryset dbAssigned 1 (some "1")) ∧
    (Recipe.mk 9 2 "Other" 1 100 "" [] [] none ∉
      RecipeViewSet.get_queryset dbAssigned 1 (some "1,2") none) :=
  ⟨(C1_owner_scoping dbAssigned 2 1 (by decide)).1 (Tag.mk 3 "Fruitly" 2) rfl,
   (C1_owner_scoping dbAssigned 2 1 (by decide)).2.1 (some "1")
     (Ingredient.mk 4 "Vinegar" 2) rfl,
   (C1_owner_scoping dbAssigned 2 1 (by decide)).2.2 (some "1,2") none
     (Recipe.mk 9 2 "Other" 1 100 "" [] [] none) rfl⟩

/-- C3: with `tags=t1,t2,...` the recipe list holds exactly the caller's
recipes having at least one tag in the given id set (non-empty
intersection); each matching recipe appears exactly once even when several
of its tags are in the set (given distinct stored rows); with the
parameter absent, no tag constraint applies. -/
theorem C3_recipes_tag_filter (db : Database) (caller : Nat) (qs : String)
    (hnd : db.recipes.Nodup) :
    (∀ r : Recipe, r ∈ RecipeViewSet.get_queryset db caller (some qs) none ↔
      r ∈ db.recipes ∧ r.user = caller ∧ ∃ t ∈ r.tags, t ∈ params_to_ids qs) ∧
    (∀ r : Recipe, r ∈ RecipeViewSet.get_queryset db caller (some qs) none →
      (RecipeViewSet.get_queryset db caller (some qs) none).count r = 1) ∧
    (∀ r : Recipe, r ∈ RecipeViewSet.get_queryset db caller none none ↔
      r ∈ db.recipes ∧ r.user = caller) := by
  refine ⟨?_, ?_, ?_⟩
  · intro r
    unfold RecipeViewSet.get_queryset RecipeViewSet.narrowed
    rw [List.mem_insertionSort]
    simp only [List.mem_filter, List.any_eq_true, and_assoc, Bool.and_eq_true,
      beq_iff_eq, decide_eq_true_eq, List.elem_iff]
  · intro r h
    unfold RecipeViewSet.get_queryset at h ⊢
    have hperm := List.perm_insertionSort (fun a b : Recipe => b.id ≤ a.id)
      (RecipeViewSet.narrowed db caller (some qs) none)
    rw [hperm.count_eq]
    have hmem : r ∈ RecipeViewSet.narrowed db caller (some qs) none :=
      (List.mem_insertionSort _).1 h
    have hndn : (RecipeViewSet.narrowed db caller (some qs) none).Nodup := by
      unfold RecipeViewSet.narrowed
      exact (hnd.filter _).filter _
    exact List.count_eq_one_of_mem hndn hmem
  · intro r
    unfold RecipeViewSet.get_queryset RecipeViewSet.narrowed
    rw [List.mem_insertionSort]
    simp [List.mem_filter]

/-- The store of `test_filter_recipes_by_tags`: three recipes of one user,
the first tagged `Vegan` (id 1), the second tagged `Vegetarian` (id 2), the
third untagged. -/
def dbFiltering : Database :=
  { users := [{ id := 1, email := "test@gmail.com", name := "",
                password := "x", is_active := true, is_staff := false,
                is_superuser := false }]
    tags := [{ id := 1, name := "Vegan", user := 1 },
             { id := 2, name := "Vegetarian", user := 1 }]
    ingredients := []
    recipes := [{ id := 1, user := 1, title := "Thai vegetable curry",
                  time_minutes := 10, price := 500, link := "",
                  ingredients := [], tags := [1, 2], image := none },
                { id := 2, user := 1, title := "Aubergine with tahini",
                  time_minutes := 10, price := 500, link := "",
                  ingredients := [], tags := [2], image := none },
                { id := 3, user := 1, title := "Fish and chip",
                  time_minutes := 10, price := 500, link := "",
                  ingredients := [], tags := [], image := none }] }

/-- Witness for C3 at the store of `test_filter_recipes_by_tags`,
querying `tags=1,2`: the doubly-tagged recipe is in the result exactly
once, and the untagged one is absent. -/
theorem C3_witness :
    (Recipe.mk 1 1 "Thai vegetable curry" 10 500 "" [] [1, 2] none ∈
      RecipeViewSet.get_queryset dbFiltering 1 (some "1,2") none) ∧
    ((RecipeViewSet.get_queryset dbFiltering 1 (some "1,2") none).count
      (Recipe.mk 1 1 "Thai vegetable curry" 10 500 "" [] [1, 2] none) = 1) ∧
    (Recipe.mk 3 1 "Fish and chip" 10 500 "" [] [] none ∉
      RecipeViewSet.get_queryset dbFiltering 1 (some "1,2") none) := by
  have hthm := C3_recipes_tag_filter dbFiltering 1 "1,2" (by decide)
  have hin : Recipe.mk 1 1 "Thai vegetable curry" 10 500 "" [] [1, 2] none ∈
      RecipeViewSet.get_queryset dbFiltering 1 (some "1,2") none :=
    (hthm.1 _).2 (by decide)
  exact ⟨hin, hthm.2.1 _ hin,
    fun h => absurd ((hthm.1 _).1 h) (by decide)⟩

/-- C4: on a payload that omits `tags`, a full update (PUT) resets the
recipe's tag set to empty while a partial update (PATCH) leaves it
unchanged; in both cases every field present in the payload is applied. -/
theorem C4_update_asymmetry (r : Recipe) (p : RecipePayload)
    (htags : p.tags = none) :
    (∀ r' : Recipe, full_update r p = some r' →
      r'.tags = [] ∧
      (∀ v, p.title = some v → r'.title = v) ∧
      (∀ v, p.time_minutes = some v → r'.time_minutes = v) ∧
      (∀ v, p.price = some v → r'.price = v) ∧
      (∀ v, p.link = some v → r'.link = v)) ∧
    ((partial_update r p).tags = r.tags ∧
      (∀ v, p.title = some v → (partial_update r p).title = v) ∧
      (∀ v, p.time_minutes = some v → (partial_update r p).time_minutes = v) ∧
      (∀ v, p.price = some v → (partial_update r p).price = v) ∧
      (∀ v, p.link = some v → (partial_update r p).link = v)) := by
  constructor
  · intro r' h
    unfold full_update at h
    cases ht : p.title with
    | none => rw [ht] at h; exact absurd h (by simp)
    | some t =>
      cases hm : p.time_minutes with
      | none => rw [ht, hm] at h; exact absurd h (by simp)
      | some m =>
        cases hp : p.price with
        | none => rw [ht, hm, hp] at h; exact absurd h (by simp)
        | some pr =>
          rw [ht, hm, hp] at h
          simp only [Option.some.injEq] at h
          subst h
          refine ⟨by simp [htags], ?_, ?_, ?_, ?_⟩
          · intro v hv; simp only [Option.some.injEq] at hv; simp [hv]
          · intro v hv; simp only [Option.some.injEq] at hv; simp [hv]
          · intro v hv; simp only [Option.some.injEq] at hv; simp [hv]
          · intro v hv; simp [hv]
  · refine ⟨by simp [partial_update, htags], ?_, ?_, ?_, ?_⟩
    · intro v hv; simp [partial_update, hv]
    · intro v hv; simp [partial_update, hv]
    · intro v hv; simp [partial_update, hv]
    · intro v hv; simp [partial_update, hv]

/-- Witness for C4 at the scenario of `test_full_update_recipe` and
`test_partial_update_recipe`: a recipe with one tag, updated by a payload
carrying `title`/`time_minutes`/`price` but no `tags`. -/
theorem C4_witness :
    (∀ r' : Recipe,
      full_update (Recipe.mk 1 1 "Sample recipe" 10 500 "" [] [7] none)
        (RecipePayload.mk (some "Spaghetti carbonara") (some 25) (some 500)
          none none none) = some r' →
      r'.tags = [] ∧
      (∀ v, (some "Spaghetti carbonara" : Option String) = some v → r'.title = v) ∧
      (∀ v, (some (25 : Int) : Option Int) = some v → r'.time_minutes = v) ∧
      (∀ v, (some (500 : Int) : Option Int) = some v → r'.price = v) ∧
      (∀ v, (none : Option String) = some v → r'.link = v)) ∧
    ((partial_update (Recipe.mk 1 1 "Sample recipe" 10 500 "" [] [7] none)
        (RecipePayload.mk (some "Spaghetti carbonara") (some 25) (some 500)
          none none none)).tags = [7] ∧
      (∀ v, (some "Spaghetti carbonara" : Option String) = some v →
        (partial_update (Recipe.mk 1 1 "Sample recipe" 10 500 "" [] [7] none)
          (RecipePayload.mk (some "Spaghetti carbonara") (some 25) (some 500)
            none none none)).title = v) ∧
      (∀ v, (some (25 : Int) : Option Int) = some v →
        (partial_update (Recipe.mk 1 1 "Sample recipe" 10 500 "" [] [7] none)
          (RecipePayload.mk (some "Spaghetti carbonara") (some 25) (some 500)
            none none none)).time_minutes = v) ∧
      (∀ v, (some (500 : Int) : Option Int) = some v →
        (partial_update (Recipe.mk 1 1 "Sample recipe" 10 500 "" [] [7] none)
          (RecipePayload.mk (some "Spaghetti carbonara") (some 25) (some 500)
            none none none)).price = v) ∧
      (∀ v, (none : Option String) = some v →
        (partial_update (Recipe.mk 1 1 "Sample recipe" 10 500 "" [] [7] none)
          (RecipePayload.mk (some "Spaghetti carbonara") (some 25) (some 500)
            none none none)).link = v)) :=
  C4_update_asymmetry (Recipe.mk 1 1 "Sample recipe" 10 500 "" [] [7] none)
    (RecipePayload.mk (some "Spaghetti carbonara") (some 25) (some 500)
      none none none) rfl

/-- C7: registration with a password shorter than 5 characters fails with
status 400 and leaves the user store unchanged; with a password of length
at least 5 (and an otherwise valid payload: non-empty fresh email) the
request is not rejected — it creates the user with status 201. -/
theorem C7_password_min_length (hash : String → String) (db : Database)
    (email password name : String) :
    (password.length < 5 →
      registerUser hash db email password name =
        { db := db, status := 400, user := none }) ∧
    (5 ≤ password.length → email ≠ "" →
      (∀ u ∈ db.users, u.email ≠ email) →
      (registerUser hash db email password name).status = 201) := by
  constructor
  · intro hlen
    unfold registerUser
    rw [if_pos (Or.inr (Or.inl hlen))]
  · intro hlen hemail hfresh
    have hany : db.users.any (fun u => u.email == email) = false := by
      simp only [List.any_eq_false]
      intro u hu
      simpa using hfresh u hu
    unfold registerUser
    rw [if_neg (by simp [hemail, Nat.not_lt.2 hlen, hany])]
    unfold create_user
    rw [if_neg hemail]

/-- Witness for C7: the payload of `test_password_too_short` (`pw`) is
rejected with the store unchanged, while a 7-character password on the
same empty store is accepted. -/
theorem C7_witness :
    (registerUser (fun s => "h" ++ s) (Database.mk [] [] [] [])
        "test@gmail.com" "pw" "Test User" =
      { db := Database.mk [] [] [] [], status := 400, user := none }) ∧
    ((registerUser (fun s => "h" ++ s) (Database.mk [] [] [] [])
        "test@gmail.com" "test123" "Test User").status = 201) :=
  ⟨(C7_password_min_length (fun s => "h" ++ s) (Database.mk [] [] [] [])
      "test@gmail.com" "pw" "Test User").1 (by decide),
   (C7_password_min_length (fun s => "h" ++ s) (Database.mk [] [] [] [])
      "test@gmail.com" "test123" "Test User").2 (by decide) (by decide)
      (by intro u hu; exact absurd hu (List.not_mem_nil u))⟩

/-- C8: after a successful registration, a second registration with the
same email fails with status 400 and leaves the store unchanged, while the
first user is still present and still authenticates with the original
credentials.  (`hnorm` pins the submitted email to its normalized form,
the form under which it is stored and looked up.) -/
theorem C8_duplicate_email (hash : String → String) (db db1 : Database)
    (email password name : String) (u : User)
    (hreg : registerUser hash db email password name =
      { db := db1, status := 201, user := some u })
    (hnorm : normalize_email email = email) :
    (∀ password2 name2,
      registerUser hash db1 email password2 name2 =
        { db := db1, status := 400, user := none }) ∧
    u ∈ db1.users ∧
    authenticate hash db1 email password = some u := by
  unfold registerUser at hreg
  by_cases hcond : email = "" ∨ password.length < 5 ∨
      db.users.any (fun v => v.email == email) = true
  · rw [if_pos hcond] at hreg
    exact absurd (congrArg RegisterOutcome.status hreg) (by simp)
  · rw [if_neg hcond] at hreg
    push_neg at hcond
    obtain ⟨hemail, _, hany⟩ := hcond
    unfold create_user at hreg
    rw [if_neg hemail] at hreg
    simp only [RegisterOutcome.mk.injEq, Option.some.injEq] at hreg
    obtain ⟨hdb1, _, hu⟩ := hreg
    have hfresh : ∀ v ∈ db.users, (fun w : User => w.email == email) v = false := by
      intro v hv
      by_contra hne
      exact hany (List.any_eq_true.2 ⟨v, hv, by simpa using hne⟩)
    have huemail : u.email = email := by
      rw [← hu]
      simpa using hnorm
    have husers : db1.users = db.users ++ [u] := by
      rw [← hdb1, ← hu]
    refine ⟨?_, ?_, ?_⟩
    · intro password2 name2
      have hdup : db1.users.any (fun w : User => w.email == email) = true := by
        rw [husers]
        exact List.any_eq_true.2 ⟨u, by simp, by simp [huemail]⟩
      unfold registerUser
      rw [if_pos (Or.inr (Or.inr hdup))]
    · rw [husers]; simp
    · unfold authenticate
      rw [husers, find?_append_right _ _ _ hfresh]
      have hfind : List.find? (fun w : User => w.email == email) [u] = some u := by
        simp [List.find?, huemail]
      rw [hfind]
      have hpw : check_password hash password u = true := by
        simp [check_password, ← hu]
      have hact : u.is_active = true := by rw [← hu]
      simp [hpw, hact]

/-- Witness for C8: register `a@b.com` on an empty store, then observe the
duplicate rejection and the successful token authentication of the first
user. -/
theorem C8_witness :
    (∀ password2 name2,
      registerUser (fun s => "h" ++ s)
        { users := [User.mk 1 "a@b.com" "N" "hsecret7" true false false],
          tags := [], ingredients := [], recipes := [] }
        "a@b.com" password2 name2 =
      { db := { users := [User.mk 1 "a@b.com" "N" "hsecret7" true false false],
                tags := [], ingredients := [], recipes := [] },
        status := 400, user := none }) ∧
    User.mk 1 "a@b.com" "N" "hsecret7" true false false ∈
      ({ users := [User.mk 1 "a@b.com" "N" "hsecret7" true false false],
         tags := [], ingredients := [], recipes := [] } : Database).users ∧
    authenticate (fun s => "h" ++ s)
      { users := [User.mk 1 "a@b.com" "N" "hsecret7" true false false],
        tags := [], ingredients := [], recipes := [] }
      "a@b.com" "secret7" =
      some (User.mk 1 "a@b.com" "N" "hsecret7" true false false) :=
  C8_duplicate_email (fun s => "h" ++ s) (Database.mk [] [] [] [])
    { users := [User.mk 1 "a@b.com" "N" "hsecret7" true false false],
      tags := [], ingredients := [], recipes := [] }
    "a@b.com" "secret7" "N"
    (User.mk 1 "a@b.com" "N" "hsecret7" true false false)
    (by decide) (by decide)

theorem ownersExist_users_append (db : Database) (l : List User)
    (h : db.ownersExist) :
    Database.ownersExist { db with users := db.users ++ l } := by
  obtain ⟨hT, hI, hR⟩ := h
  refine ⟨?_, ?_, ?_⟩
  · intro t ht
    obtain ⟨w, hw, hwid⟩ := hT t ht
    exact ⟨w, List.mem_append_left l hw, hwid⟩
  · intro i hi
    obtain ⟨w, hw, hwid⟩ := hI i hi
    exact ⟨w, List.mem_append_left l hw, hwid⟩
  · intro r hr
    obtain ⟨w, hw, hwid⟩ := hR r hr
    exact ⟨w, List.mem_append_left l hw, hwid⟩

/-- C9: the ownership invariant — every tag/ingredient/recipe references
an existing user — is preserved by entity creation (which stamps the
authenticated caller, a stored user, as owner), by user registration, and
by user deletion, whose cascade removes every entity the deleted user
owned; updates never touch the owner (the payload carries no owner
field). -/
theorem C9_owner_invariant (db : Database) (hdb : db.ownersExist) :
    (∀ caller name, (∃ w ∈ db.users, w.id = caller) →
      (createTag db caller name).1.ownersExist ∧
      (createTag db caller name).2.user = caller) ∧
    (∀ caller name, (∃ w ∈ db.users, w.id = caller) →
      (createIngredient db caller name).1.ownersExist ∧
      (createIngredient db caller name).2.user = caller) ∧
    (∀ caller p, (∃ w ∈ db.users, w.id = caller) →
      (createRecipe db caller p).1.ownersExist ∧
      (createRecipe db caller p).2.user = caller) ∧
    (∀ hash email password name,
      ((registerUser hash db email password name).db).ownersExist) ∧
    (∀ uid, (deleteUser db uid).ownersExist ∧
      (∀ t ∈ (deleteUser db uid).tags, t.user ≠ uid) ∧
      (∀ i ∈ (deleteUser db uid).ingredients, i.user ≠ uid) ∧
      (∀ r ∈ (deleteUser db uid).recipes, r.user ≠ uid)) ∧
    (∀ (r : Recipe) (p : RecipePayload),
      (partial_update r p).user = r.user ∧
      (∀ r', full_update r p = some r' → r'.user = r.user)) := by
  obtain ⟨hT, hI, hR⟩ := hdb
  refine ⟨?_, ?_, ?_, ?_, ?_, ?_⟩
  · intro caller name hcaller
    refine ⟨⟨?_, hI, hR⟩, rfl⟩
    intro t ht
    rcases List.mem_append.1 ht with h | h
    · exact hT t h
    · obtain rfl : t = { id := nextId Tag.id db.tags, name := name, user := caller } := by
        simpa using h
      exact hcaller
  · intro caller name hcaller
    refine ⟨⟨hT, ?_, hR⟩, rfl⟩
    intro i hi
    rcases List.mem_append.1 hi with h | h
    · exact hI i h
    · obtain rfl : i = Ingredient.mk (nextId Ingredient.id db.ingredients)
          name caller := by simpa using h
      exact hcaller
  · intro caller p hcaller
    refine ⟨⟨hT, hI, ?_⟩, rfl⟩
    intro r hr
    rcases List.mem_append.1 hr with h | h
    · exact hR r h
    · obtain rfl : r = Recipe.mk (nextId Recipe.id db.recipes) caller
          (p.title.getD "") (p.time_minutes.getD 0) (p.price.getD 0)
          (p.link.getD "") (p.ingredients.getD []) (p.tags.getD [])
          none := by simpa using h
      exact hcaller
  · intro hash email password name
    unfold registerUser
    split
    · exact ⟨hT, hI, hR⟩
    · split
      · exact ⟨hT, hI, hR⟩
      · rename_i heq
        unfold create_user at heq
        split at heq
        · exact Except.noConfusion heq
        · simp only [Except.ok.injEq, Prod.mk.injEq] at heq
          rw [← heq.1]
          exact ownersExist_users_append db _ ⟨hT, hI, hR⟩
  · intro uid
    refine ⟨⟨?_, ?_, ?_⟩, ?_, ?_, ?_⟩
    · intro t ht
      have hmem := List.mem_filter.1 ht
      obtain ⟨w, hw, hwid⟩ := hT t hmem.1
      refine ⟨w, List.mem_filter.2 ⟨hw, ?_⟩, hwid⟩
      simp only [decide_eq_true_eq] at hmem ⊢
      rw [hwid]
      exact hmem.2
    · intro i hi
      have hmem := List.mem_filter.1 hi
      obtain ⟨w, hw, hwid⟩ := hI i hmem.1
      refine ⟨w, List.mem_filter.2 ⟨hw, ?_⟩, hwid⟩
      simp only [decide_eq_true_eq] at hmem ⊢
      rw [hwid]
      exact hmem.2
    · intro r hr
      have hmem := List.mem_filter.1 hr
      obtain ⟨w, hw, hwid⟩ := hR r hmem.1
      refine ⟨w, List.mem_filter.2 ⟨hw, ?_⟩, hwid⟩
      simp only [decide_eq_true_eq] at hmem ⊢
      rw [hwid]
      exact hmem.2
    · intro t ht
      simpa using (List.mem_filter.1 ht).2
    · intro i hi
      simpa using (List.mem_filter.1 hi).2
    · intro r hr
      simpa using (List.mem_filter.1 hr).2
  · intro r p
    refine ⟨rfl, ?_⟩
    intro r' h
    unfold full_update at h
    split at h
    · simp only [Option.some.injEq] at h
      rw [← h]
    · exact Option.noConfusion h

/-- Witness for C9 on the two-tag store: creating a tag as user 1 keeps
the invariant and stamps user 1 as owner, and deleting user 1 cascades to
a store with the invariant intact and no entity owned by 1. -/
theorem C9_witness :
    ((createTag dbAssigned 1 "Comfort Food").1.ownersExist ∧
      (createTag dbAssigned 1 "Comfort Food").2.user = 1) ∧
    ((deleteUser dbAssigned 1).ownersExist ∧
      (∀ t ∈ (deleteUser dbAssigned 1).tags, t.user ≠ 1) ∧
      (∀ i ∈ (deleteUser dbAssigned 1).ingredients, i.user ≠ 1) ∧
      (∀ r ∈ (deleteUser dbAssigned 1).recipes, r.user ≠ 1)) :=
  ⟨(C9_owner_invariant dbAssigned (by decide)).1 1 "Comfort Food"
      (by refine ⟨{ id := 1, email := "test@gmail.com", name := "",
                    password := "x", is_active := true, is_staff := false,
                    is_superuser := false }, by simp [dbAssigned], rfl⟩),
   (C9_owner_invariant dbAssigned (by decide)).2.2.2.2.1 1⟩

end RecipeApp
